import Mathlib

/-!
Verification development for the blockchain_banking repository.

The transaction submission engine (`app/utils/web3_client.py`), the account
repository (`app/repositories/account.py`) and the key-encryption helpers
(`app/utils/crypto.py`) are embedded shallowly: every network call is routed
through an explicit environment (`NetEnv`) that says, per retry attempt, how
the remote node answers, and every function returns its Python result together
with an event trace recording the nonce fetches, gas estimations, broadcasts
and receipt polls it performed.  Machine integers are `Nat`; the retry delay
(a Python float with exact value 2.0) is a rational.
-/

/-- Python exceptions that appear in the repository, one constructor per
distinguishable exception class (all of them subclasses of `Exception`, which
is what `async_retry` catches).  `transactionFailed h` is the anonymous
`Exception(f"Transaction failed: {tx_hash}")` raised on a bad receipt status;
`noneType` is the `TypeError` Python would raise on `raise None` when
`async_retry` is instantiated with `max_retries = 0`. -/
inductive PyErr where
  | networkError
  | rejectedError
  | timeoutError
  | transactionFailed (txHash : String)
  | insufficientBalance
  | blockchainError
  | accountAlreadyExists
  | accountNotFound
  | privateKeyEncryption
  | noneType
  | other (msg : String)
deriving DecidableEq, Repr

instance {ε α : Type} [DecidableEq ε] [DecidableEq α] :
    DecidableEq (Except ε α) := fun a b =>
  match a, b with
  | .ok x, .ok y => decidable_of_iff (x = y) (by simp)
  | .ok _, .error _ => isFalse (by simp)
  | .error _, .ok _ => isFalse (by simp)
  | .error x, .error y => decidable_of_iff (x = y) (by simp)

/-- A transaction receipt; the code only inspects `receipt["status"]`. -/
structure Receipt where
  status : Nat
deriving DecidableEq, Repr

/-- The native-transfer transaction dict built by `send_native_token`:
`{"nonce", "to", "value", "gas", "gasPrice", "chainId"}`. -/
structure Txn where
  nonce : Nat
  toAddr : String
  value : Nat
  gas : Nat
  gasPrice : Nat
  chainId : Nat
deriving DecidableEq, Repr

/-- The dict literal `transfer_erc20` passes to `build_transaction`:
`{"from", "nonce", "gas", "chainId"}` — note there is no gasPrice key. -/
structure BuildParams where
  fromAddr : String
  nonce : Nat
  gas : Nat
  chainId : Nat
deriving DecidableEq, Repr

/-- The token-transfer transaction returned by
`contract.functions.transfer(to, amount).build_transaction(params)`:
the call data encodes `transfer(dataTo, dataAmount)` against the token
contract, and the supplied params are copied through. -/
structure TokenTxn where
  fromAddr : String
  toContract : String
  dataTo : String
  dataAmount : Nat
  nonce : Nat
  gas : Nat
  chainId : Nat
  value : Nat
deriving DecidableEq, Repr

/-- Observable network events of one submission, in program order. -/
inductive Ev where
  | fetchNonce (addr : String) (res : Except PyErr Nat)
  | gasEstimate (res : Except PyErr Nat)
  | buildTxn (p : BuildParams)
  | broadcastNative (t : Txn) (res : Except PyErr String)
  | broadcastToken (t : TokenTxn) (res : Except PyErr String)
  | pollReceipt (txHash : String) (res : Except PyErr Receipt)
  | balanceOfCall (tokenAddr owner : String) (res : Except PyErr Nat)
  | nativeBalanceCall (owner : String) (res : Except PyErr Nat)
deriving DecidableEq, Repr

/-- Result of running one attempt (one execution of a decorated function's
body): the Python return value or exception, plus the events performed. -/
structure AttemptOut (α : Type) where
  result : Except PyErr α
  events : List Ev
deriving Repr

/-- Result of running a whole `async_retry`-decorated call: final result,
number of body executions, the list of `asyncio.sleep` durations taken
between attempts, and the per-attempt event traces. -/
structure RunOut (α : Type) where
  result : Except PyErr α
  attempts : Nat
  sleeps : List ℚ
  trace : List (List Ev)
deriving Repr

/-- All events of a run, flattened in order. -/
def RunOut.allE {α : Type} (r : RunOut α) : List Ev := r.trace.flatten

/-- The loop of `async_retry`'s `wrapper`: `remaining` attempts are left,
the next body execution has index `start`.  On success return at once; on an
exception sleep `delay` and continue unless this was the last attempt, in
which case the exception is re-raised (`raise last_exception`).  With zero
attempts the Python code raises `None`, a `TypeError`. -/
def retryAux {α : Type} (body : Nat → AttemptOut α) (delay : ℚ) :
    Nat → Nat → RunOut α
  | _, 0 => ⟨.error .noneType, 0, [], []⟩
  | start, 1 =>
    let out := body start
    match out.result with
    | .ok a => ⟨.ok a, 1, [], [out.events]⟩
    | .error e => ⟨.error e, 1, [], [out.events]⟩
  | start, r + 2 =>
    let out := body start
    match out.result with
    | .ok a => ⟨.ok a, 1, [], [out.events]⟩
    | .error _ =>
      let rest := retryAux body delay (start + 1) (r + 1)
      ⟨rest.result, rest.attempts + 1, delay :: rest.sleeps,
        out.events :: rest.trace⟩

/-- `async_retry(max_retries, delay)` applied to a body, where `body i` is
the outcome of the body's `i`-th execution against the network state it sees
at that time. -/
def asyncRetryRun {α : Type} (maxRetries : Nat) (delay : ℚ)
    (body : Nat → AttemptOut α) : RunOut α :=
  retryAux body delay 0 maxRetries

-- Per-case unfolding lemmas for the retry loop.

theorem retryAux_zero {α : Type} (body : Nat → AttemptOut α)
    (delay : ℚ) (start : Nat) :
    retryAux body delay start 0 = ⟨.error .noneType, 0, [], []⟩ := rfl

theorem retryAux_ok {α : Type} {body : Nat → AttemptOut α}
    {delay : ℚ} {start : Nat} {a : α} (r : Nat)
    (hok : (body start).result = .ok a) :
    retryAux body delay start (r + 1) =
      ⟨.ok a, 1, [], [(body start).events]⟩ := by
  cases r with
  | zero => simp only [retryAux, hok]
  | succ r' => simp only [retryAux, hok]

theorem retryAux_err_last {α : Type} {body : Nat → AttemptOut α}
    {delay : ℚ} {start : Nat} {e : PyErr}
    (herr : (body start).result = .error e) :
    retryAux body delay start 1 =
      ⟨.error e, 1, [], [(body start).events]⟩ := by
  simp only [retryAux, herr]

theorem retryAux_err_step {α : Type} {body : Nat → AttemptOut α}
    {delay : ℚ} {start r : Nat} {e : PyErr}
    (herr : (body start).result = .error e) :
    retryAux body delay start (r + 2) =
      ⟨(retryAux body delay (start + 1) (r + 1)).result,
       (retryAux body delay (start + 1) (r + 1)).attempts + 1,
       delay :: (retryAux body delay (start + 1) (r + 1)).sleeps,
       (body start).events :: (retryAux body delay (start + 1) (r + 1)).trace⟩ := by
  simp only [retryAux, herr]

-- Generic facts about the retry loop.

theorem retryAux_attempts_pos {α : Type} (body : Nat → AttemptOut α)
    (delay : ℚ) (start r : Nat) (hr : 0 < r) :
    0 < (retryAux body delay start r).attempts := by
  cases r with
  | zero => omega
  | succ r =>
    rcases hok : (body start).result with e | a
    · cases r with
      | zero => rw [retryAux_err_last hok]; simp
      | succ r' => rw [retryAux_err_step hok]; simp
    · rw [retryAux_ok r hok]; simp

theorem retryAux_attempts_le {α : Type} (body : Nat → AttemptOut α)
    (delay : ℚ) (start r : Nat) :
    (retryAux body delay start r).attempts ≤ r := by
  induction r generalizing start with
  | zero => simp [retryAux_zero]
  | succ r ih =>
    rcases hok : (body start).result with e | a
    · cases r with
      | zero => rw [retryAux_err_last hok]
      | succ r' =>
        rw [retryAux_err_step hok]
        have h := ih (start + 1)
        dsimp only
        omega
    · rw [retryAux_ok r hok]; simp

theorem retryAux_sleeps_fixed {α : Type} (body : Nat → AttemptOut α)
    (delay : ℚ) (start r : Nat) :
    ∀ d ∈ (retryAux body delay start r).sleeps, d = delay := by
  induction r generalizing start with
  | zero => simp [retryAux_zero]
  | succ r ih =>
    rcases hok : (body start).result with e | a
    · cases r with
      | zero => rw [retryAux_err_last hok]; simp
      | succ r' =>
        rw [retryAux_err_step hok]
        intro d hd
        simp only [List.mem_cons] at hd
        rcases hd with h | h
        · exact h
        · exact ih (start + 1) d h
    · rw [retryAux_ok r hok]; simp

theorem retryAux_trace {α : Type} (body : Nat → AttemptOut α)
    (delay : ℚ) (start r : Nat) :
    (retryAux body delay start r).trace =
      (List.range (retryAux body delay start r).attempts).map
        (fun i => (body (start + i)).events) := by
  induction r generalizing start with
  | zero => simp [retryAux_zero]
  | succ r ih =>
    rcases hok : (body start).result with e | a
    · cases r with
      | zero =>
        rw [retryAux_err_last hok]
        simp [List.range_succ]
      | succ r' =>
        rw [retryAux_err_step hok]
        have h := ih (start + 1)
        simp only [List.range_succ_eq_map, List.map_cons, Nat.add_zero,
          List.map_map]
        refine List.cons_eq_cons.mpr ⟨rfl, ?_⟩
        rw [h]
        apply List.map_congr_left
        intro i _
        have harg : start + 1 + i = start + (i + 1) := by omega
        simp [Function.comp, harg]
    · rw [retryAux_ok r hok]
      simp [List.range_succ]

theorem retryAux_all_fail {α : Type} (body : Nat → AttemptOut α)
    (delay : ℚ) (start r : Nat) (hr : 0 < r)
    (hfail : ∀ i, i < r → ∃ e, (body (start + i)).result = .error e) :
    (retryAux body delay start r).result = (body (start + (r - 1))).result ∧
      (retryAux body delay start r).attempts = r := by
  induction r generalizing start with
  | zero => exact absurd hr (by simp)
  | succ r ih =>
    obtain ⟨e0, he0⟩ := hfail 0 (Nat.succ_pos r)
    simp only [Nat.add_zero] at he0
    cases r with
    | zero =>
      rw [retryAux_err_last he0]
      simp [he0]
    | succ r' =>
      rw [retryAux_err_step he0]
      have hrec := ih (start + 1) (Nat.succ_pos r')
        (fun i hi => by
          have := hfail (i + 1) (by omega)
          simpa [Nat.add_assoc, Nat.add_comm 1 i, Nat.add_left_comm] using this)
      refine ⟨?_, ?_⟩
      · have harg : start + (r' + 1 + 1 - 1) = start + 1 + (r' + 1 - 1) := by
          omega
        dsimp only
        rw [harg]
        exact hrec.1
      · dsimp only
        omega

-- Settings (`app/settings.py`) and library helpers.

/-- Application settings consumed by the embedded code (`app/settings.py`);
defaults as in the source. -/
structure Settings where
  gasLimit : Nat
  gasPriceGwei : ℚ
  chainId : Nat
  initialFaucetGwei : ℚ
  faucetPrivateKey : String
  tokenAddress : String

/-- The source's default configuration: `gas_limit = 100000`,
`gas_price_gwei = Decimal("0.1")`, `chain_id = 1000`,
`initial_faucet_gwei = Decimal("10")`. -/
def defaultSettings : Settings :=
  ⟨100000, mkRat 1 10, 1000, mkRat 10 1, "0xfaucetkey",
    "0x7a816c115b8aed1fee7029dd490613f20063b9c3"⟩

/-- `w3.to_wei(q, "gwei")` on a `Decimal`: exact multiplication by `10^9`
and conversion to `int` (truncation toward zero), written on the reduced
numerator and denominator so that it evaluates by kernel reduction. -/
def toWeiGwei (q : ℚ) : Nat := ((q.num * 1000000000) / (q.den : Int)).toNat

/-- Models `Account.from_key(key).address` from the `eth_account` library
(secp256k1 public-key derivation): an injective tagging of the key, which is
all the embedded claims depend on. -/
def addressOfKey (key : String) : String := "0xaddr:" ++ key

/-- How the remote node answers each RPC the client makes.  The submission
code is run against an attempt-indexed family `Nat → NetEnv`, so that the
network may answer differently on different retry attempts. -/
structure NetEnv where
  transactionCount : String → Except PyErr Nat
  estimateNative : Txn → Except PyErr Nat
  estimateToken : TokenTxn → Except PyErr Nat
  sendRawNative : Txn → Except PyErr String
  sendRawToken : TokenTxn → Except PyErr String
  waitReceipt : String → Except PyErr Receipt
  balanceOf : String → String → Except PyErr Nat
  nativeBalance : String → Except PyErr Nat

-- `Web3Client.estimate_gas` (web3_client.py lines 123-133): the body asks
-- the node for an estimate; on success returns `int(gas * 1.2)` (a 20%
-- buffer, truncated — embedded as exact truncation `g * 12 / 10`), on any
-- exception logs and returns `settings.gas_limit`.  The body never raises,
-- so its own `@async_retry(3, 2.0)` wrapper always stops after one attempt.

/-- One execution of the `estimate_gas` body against the node's answer. -/
def estimateGasBody (gasLimit : Nat) (est : Except PyErr Nat) :
    AttemptOut Nat :=
  match est with
  | .ok g => ⟨.ok (g * 12 / 10), [.gasEstimate (.ok g)]⟩
  | .error e => ⟨.ok gasLimit, [.gasEstimate (.error e)]⟩

/-- The decorated `estimate_gas` method. -/
def estimate_gas (gasLimit : Nat) (est : Except PyErr Nat) : RunOut Nat :=
  asyncRetryRun 3 2 (fun _ => estimateGasBody gasLimit est)

/-- The integer `estimate_gas` evaluates to. -/
def estimateGasValue (gasLimit : Nat) (est : Except PyErr Nat) : Nat :=
  match est with
  | .ok g => g * 12 / 10
  | .error _ => gasLimit

theorem estimateGasBody_result (gasLimit : Nat) (est : Except PyErr Nat) :
    (estimateGasBody gasLimit est).result =
      .ok (estimateGasValue gasLimit est) := by
  cases est <;> rfl

theorem estimate_gas_eq (gasLimit : Nat) (est : Except PyErr Nat) :
    estimate_gas gasLimit est =
      ⟨.ok (estimateGasValue gasLimit est), 1, [],
        [(estimateGasBody gasLimit est).events]⟩ := by
  unfold estimate_gas asyncRetryRun
  rw [retryAux_ok 2 (estimateGasBody_result gasLimit est)]

-- `Web3Client.send_native_token` (web3_client.py lines 135-179), one body
-- execution: fetch the sender's nonce, fix the gas price from settings,
-- assemble the transaction dict, replace its gas field by the estimate,
-- sign, broadcast, wait for the receipt, and raise a bare `Exception` if
-- the receipt status is not 1.

/-- One execution of the `send_native_token` body. -/
def sendNativeTokenBody (cfg : Settings) (env : NetEnv)
    (fromKey toAddr : String) (amountWei : Nat) : AttemptOut String :=
  let addr := addressOfKey fromKey
  match env.transactionCount addr with
  | .error e => ⟨.error e, [.fetchNonce addr (.error e)]⟩
  | .ok nonce =>
    let gasPrice := toWeiGwei cfg.gasPriceGwei
    let t0 : Txn := ⟨nonce, toAddr, amountWei, cfg.gasLimit, gasPrice,
      cfg.chainId⟩
    let eg := estimate_gas cfg.gasLimit (env.estimateNative t0)
    let evs0 := Ev.fetchNonce addr (.ok nonce) :: eg.allE
    match eg.result with
    | .error e => ⟨.error e, evs0⟩
    | .ok g =>
      let t : Txn := { t0 with gas := g }
      match env.sendRawNative t with
      | .error e => ⟨.error e, evs0 ++ [.broadcastNative t (.error e)]⟩
      | .ok txHash =>
        let evs1 := evs0 ++ [Ev.broadcastNative t (.ok txHash)]
        match env.waitReceipt txHash with
        | .error e => ⟨.error e, evs1 ++ [.pollReceipt txHash (.error e)]⟩
        | .ok rc =>
          let evs2 := evs1 ++ [Ev.pollReceipt txHash (.ok rc)]
          if rc.status = 1 then ⟨.ok txHash, evs2⟩
          else ⟨.error (.transactionFailed txHash), evs2⟩

/-- The decorated `send_native_token`, `@async_retry(max_retries=3, delay=2.0)`. -/
def send_native_token (cfg : Settings) (env : Nat → NetEnv)
    (fromKey toAddr : String) (amountWei : Nat) : RunOut String :=
  asyncRetryRun 3 2
    (fun i => sendNativeTokenBody cfg (env i) fromKey toAddr amountWei)

/-- `contract.functions.transfer(to, amount).build_transaction(params)`:
the web3 library encodes the `transfer(to, amount)` call against the token
contract and copies the supplied params through. -/
def buildTransaction (tokenAddr recipient : String) (amount : Nat)
    (p : BuildParams) : TokenTxn :=
  ⟨p.fromAddr, tokenAddr, recipient, amount, p.nonce, p.gas, p.chainId, 0⟩

-- `Web3Client.transfer_erc20` (web3_client.py lines 181-234), one body
-- execution.  Note the params dict passed to `build_transaction` is
-- `{"from", "nonce", "gas": gas_price, "chainId"}` — the gas PRICE is put
-- in the field meant for the gas limit, and no gasPrice key is supplied.

/-- One execution of the `transfer_erc20` body. -/
def transferErc20Body (cfg : Settings) (env : NetEnv)
    (fromKey toAddr : String) (amount : Nat) (tokenAddr : String) :
    AttemptOut String :=
  let addr := addressOfKey fromKey
  match env.transactionCount addr with
  | .error e => ⟨.error e, [.fetchNonce addr (.error e)]⟩
  | .ok nonce =>
    let gasPrice := toWeiGwei cfg.gasPriceGwei
    let p : BuildParams := ⟨addr, nonce, gasPrice, cfg.chainId⟩
    let t0 := buildTransaction tokenAddr toAddr amount p
    let eg := estimate_gas cfg.gasLimit (env.estimateToken t0)
    let evs0 := Ev.fetchNonce addr (.ok nonce) :: Ev.buildTxn p :: eg.allE
    match eg.result with
    | .error e => ⟨.error e, evs0⟩
    | .ok g =>
      let t : TokenTxn := { t0 with gas := g }
      match env.sendRawToken t with
      | .error e => ⟨.error e, evs0 ++ [.broadcastToken t (.error e)]⟩
      | .ok txHash =>
        let evs1 := evs0 ++ [Ev.broadcastToken t (.ok txHash)]
        match env.waitReceipt txHash with
        | .error e => ⟨.error e, evs1 ++ [.pollReceipt txHash (.error e)]⟩
        | .ok rc =>
          let evs2 := evs1 ++ [Ev.pollReceipt txHash (.ok rc)]
          if rc.status = 1 then ⟨.ok txHash, evs2⟩
          else ⟨.error (.transactionFailed txHash), evs2⟩

/-- The decorated `transfer_erc20`, `@async_retry(max_retries=3, delay=2.0)`. -/
def transfer_erc20 (cfg : Settings) (env : Nat → NetEnv)
    (fromKey toAddr : String) (amount : Nat) (tokenAddr : String) :
    RunOut String :=
  asyncRetryRun 3 2
    (fun i => transferErc20Body cfg (env i) fromKey toAddr amount tokenAddr)

-- `Web3Client.get_balance` (web3_client.py lines 110-115): builds a
-- contract handle for `token_address` and calls `balanceOf(address)`;
-- there is no branch on the token identifier.  `get_native_balance`
-- (lines 117-121) is a separate method reading the native balance.

/-- One execution of the `get_balance` body. -/
def getBalanceBody (env : NetEnv) (addr tokenAddr : String) :
    AttemptOut Nat :=
  ⟨env.balanceOf tokenAddr addr,
    [.balanceOfCall tokenAddr addr (env.balanceOf tokenAddr addr)]⟩

/-- The decorated `get_balance`, `@async_retry(max_retries=3, delay=2.0)`. -/
def get_balance (env : Nat → NetEnv) (addr tokenAddr : String) : RunOut Nat :=
  asyncRetryRun 3 2 (fun i => getBalanceBody (env i) addr tokenAddr)

/-- One execution of the `get_native_balance` body. -/
def getNativeBalanceBody (env : NetEnv) (addr : String) : AttemptOut Nat :=
  ⟨env.nativeBalance addr, [.nativeBalanceCall addr (env.nativeBalance addr)]⟩

/-- The decorated `get_native_balance`. -/
def get_native_balance (env : Nat → NetEnv) (addr : String) : RunOut Nat :=
  asyncRetryRun 3 2 (fun i => getNativeBalanceBody (env i) addr)

-- Event counting.

/-- Is the event a nonce fetch (`get_transaction_count` call)? -/
def isFetchEv : Ev → Bool
  | .fetchNonce _ _ => true
  | _ => false

/-- Is the event a raw-transaction broadcast? -/
def isBroadcastEv : Ev → Bool
  | .broadcastNative _ _ => true
  | .broadcastToken _ _ => true
  | _ => false

/-- Number of nonce-fetch calls in a trace. -/
def countFetch (l : List Ev) : Nat := l.countP isFetchEv

/-- Number of broadcast attempts in a trace. -/
def countBroadcast (l : List Ev) : Nat := l.countP isBroadcastEv

-- Repository layer (`app/repositories/account.py`): the database is a list
-- of user rows; `select(User).where(User.name == name)` is a lookup by name.

/-- A row of the `users` table (`app/models/user.py`). -/
structure User where
  name : String
  address : String
  privateKey : String
deriving DecidableEq, Repr

/-- A freshly generated key pair (`Web3Client.create_account`, which calls
`eth_account.Account.create()`); the generated material is a parameter of
the embedding since key generation is random. -/
structure BlockchainAccount where
  address : String
  privateKey : String
deriving DecidableEq, Repr

/-- The response payload of `create_account` (`app/schemas/user.py`). -/
structure UserResponse where
  name : String
  address : String
  privateKey : String
  faucetTxHash : String
deriving DecidableEq, Repr

/-- `AccountRepository.get_user_by_name`: first row whose name matches, or
`AccountNotFoundError`. -/
def get_user_by_name (db : List User) (name : String) : Except PyErr User :=
  match db.find? (fun u => u.name = name) with
  | some u => .ok u
  | none => .error .accountNotFound

/-- `AccountRepository.transfer_from_to` (account.py lines 77-102): look up
both users, check the sender's ERC20 balance via `web3_client.get_balance`,
raise `InsufficientBalanceError` if it is below the requested amount
(re-raised as itself; any other balance-check failure becomes
`BlockchainError`), then call `web3_client.transfer_erc20`. -/
def transfer_from_to (cfg : Settings) (env : Nat → NetEnv) (db : List User)
    (fromName toName : String) (amount : Nat) (tokenAddr : String) :
    Except PyErr String × List Ev :=
  match get_user_by_name db fromName with
  | .error e => (.error e, [])
  | .ok fromUser =>
    match get_user_by_name db toName with
    | .error e => (.error e, [])
    | .ok toUser =>
      let balRun := get_balance env fromUser.address tokenAddr
      match balRun.result with
      | .error _ => (.error .blockchainError, balRun.allE)
      | .ok balance =>
        if balance < amount then
          (.error .insufficientBalance, balRun.allE)
        else
          let tr := transfer_erc20 cfg env fromUser.privateKey toUser.address
            amount tokenAddr
          (tr.result, balRun.allE ++ tr.allE)

/-- `AccountRepository.get_initial_fund` (account.py lines 104-122): convert
`settings.initial_faucet_gwei` to wei and send it from the faucet key with
`send_native_token`; any exception becomes `BlockchainError`. -/
def get_initial_fund (cfg : Settings) (env : Nat → NetEnv) (user : User) :
    Except PyErr String × List Ev :=
  let amountWei := toWeiGwei cfg.initialFaucetGwei
  let run := send_native_token cfg env cfg.faucetPrivateKey user.address
    amountWei
  match run.result with
  | .error _ => (.error .blockchainError, run.allE)
  | .ok h => (.ok h, run.allE)

/-- `AccountRepository.create_account` (account.py lines 27-56): reject a
duplicate name; otherwise generate a key pair, insert the row and COMMIT,
and only then attempt the faucet transfer via `get_initial_fund`.  The
returned list is the committed database state after the call. -/
def create_account (cfg : Settings) (env : Nat → NetEnv)
    (fresh : BlockchainAccount) (db : List User) (name : String) :
    Except PyErr UserResponse × List User :=
  if db.any (fun u => u.name = name) then
    (.error .accountAlreadyExists, db)
  else
    let user : User := ⟨name, fresh.address, fresh.privateKey⟩
    let db' := db ++ [user]
    match get_initial_fund cfg env user with
    | (.error e, _) => (.error e, db')
    | (.ok h, _) => (.ok ⟨name, user.address, user.privateKey, h⟩, db')

-- Key encryption (`app/utils/crypto.py`).  `Fernet` comes from the
-- `cryptography` library; it is modelled by its documented contract as a
-- keyed, invertible, authenticated encoding of byte strings: decryption
-- with the right key undoes encryption, and any byte string that is not an
-- encryption under that key is rejected.  Bytes are lists of Char codes.

/-- Modelled `fernet.encrypt`: a keyed invertible encoding of the message
bytes (the real scheme is AES-CBC plus HMAC; for the claims only
key-invertibility and authenticated rejection matter). -/
def fernetEncrypt (key : List Char) (msg : List Char) : List Char :=
  key ++ msg

/-- Modelled `fernet.decrypt`: succeeds exactly on the encodings produced by
`fernetEncrypt` under the same key, returning the message; anything else is
`InvalidToken`. -/
def fernetDecrypt (key : List Char) (tok : List Char) : Option (List Char) :=
  if tok.take key.length = key then some (tok.drop key.length) else none

/-- `encrypt_private_key` (crypto.py lines 13-14): UTF-8 encode, encrypt
under the configured key, decode. -/
def encrypt_private_key (cfgKey : List Char) (plainKey : String) : String :=
  String.mk (fernetEncrypt cfgKey plainKey.data)

/-- `decrypt_private_key` (crypto.py lines 17-26): decrypt the token,
mapping the library's `InvalidToken` to `PrivateKeyEncryptionError`. -/
def decrypt_private_key (cfgKey : List Char) (token : String) :
    Except PyErr String :=
  match fernetDecrypt cfgKey token.data with
  | some bs => .ok (String.mk bs)
  | none => .error .privateKeyEncryption

-- Run-level counting: events of a run are the concatenation of the
-- per-attempt body events.

theorem asyncRetryRun_countP {α : Type} (p : Ev → Bool)
    (maxRetries : Nat) (delay : ℚ) (body : Nat → AttemptOut α) :
    ((asyncRetryRun maxRetries delay body).allE).countP p =
      ((List.range (asyncRetryRun maxRetries delay body).attempts).map
        (fun i => ((body i).events).countP p)).sum := by
  unfold asyncRetryRun RunOut.allE
  rw [retryAux_trace, List.countP_flatten, List.map_map]
  congr 1
  apply List.map_congr_left
  intro i _
  simp [Function.comp]

theorem asyncRetryRun_countP_le {α : Type} (p : Ev → Bool)
    (maxRetries : Nat) (delay : ℚ) (body : Nat → AttemptOut α)
    (hb : ∀ i, ((body i).events).countP p ≤ 1) :
    ((asyncRetryRun maxRetries delay body).allE).countP p ≤
      (asyncRetryRun maxRetries delay body).attempts := by
  rw [asyncRetryRun_countP]
  calc ((List.range (asyncRetryRun maxRetries delay body).attempts).map
        (fun i => ((body i).events).countP p)).sum
      ≤ ((List.range (asyncRetryRun maxRetries delay body).attempts).map
        (fun i => ((body i).events).countP p)).length • 1 := by
        apply List.sum_le_card_nsmul
        intro x hx
        obtain ⟨i, _, rfl⟩ := List.mem_map.mp hx
        exact hb i
    _ = (asyncRetryRun maxRetries delay body).attempts := by simp

theorem asyncRetryRun_countP_ge {α : Type} (p : Ev → Bool)
    (maxRetries : Nat) (delay : ℚ) (body : Nat → AttemptOut α)
    (hb : ∀ i, 1 ≤ ((body i).events).countP p) :
    (asyncRetryRun maxRetries delay body).attempts ≤
      ((asyncRetryRun maxRetries delay body).allE).countP p := by
  rw [asyncRetryRun_countP]
  calc (asyncRetryRun maxRetries delay body).attempts
      = ((List.range (asyncRetryRun maxRetries delay body).attempts).map
        (fun i => ((body i).events).countP p)).length • 1 := by simp
    _ ≤ _ := by
        apply List.card_nsmul_le_sum
        intro x hx
        obtain ⟨i, _, rfl⟩ := List.mem_map.mp hx
        exact hb i

theorem asyncRetryRun_countP_zero {α : Type} (p : Ev → Bool)
    (maxRetries : Nat) (delay : ℚ) (body : Nat → AttemptOut α)
    (hb : ∀ i, ((body i).events).countP p = 0) :
    ((asyncRetryRun maxRetries delay body).allE).countP p = 0 := by
  rw [asyncRetryRun_countP]
  apply List.sum_eq_zero
  intro x hx
  obtain ⟨i, _, rfl⟩ := List.mem_map.mp hx
  exact hb i

/-- A successful run's value was produced by some attempt within the
budget. -/
theorem retryAux_ok_source {α : Type} (body : Nat → AttemptOut α)
    (delay : ℚ) (start r : Nat) (a : α)
    (h : (retryAux body delay start r).result = .ok a) :
    ∃ i, i < r ∧ (body (start + i)).result = .ok a := by
  induction r generalizing start with
  | zero => rw [retryAux_zero] at h; cases h
  | succ r ih =>
    rcases hr : (body start).result with e | b
    · cases r with
      | zero =>
        rw [retryAux_err_last hr] at h
        cases h
      | succ r' =>
        rw [retryAux_err_step hr] at h
        dsimp only at h
        obtain ⟨i, hi, hb⟩ := ih (start + 1) h
        refine ⟨i + 1, by omega, ?_⟩
        have harg : start + (i + 1) = start + 1 + i := by omega
        rw [harg]
        exact hb
    · rw [retryAux_ok r hr] at h
      dsimp only at h
      cases h
      exact ⟨0, by omega, by simpa using hr⟩

/-- The trace entry of attempt `i` is exactly the events of the `i`-th body
execution. -/
theorem asyncRetryRun_trace_getElem {α : Type} (maxRetries : Nat)
    (delay : ℚ) (body : Nat → AttemptOut α) (i : Nat)
    (hi : i < (asyncRetryRun maxRetries delay body).attempts) :
    (asyncRetryRun maxRetries delay body).trace[i]? =
      some (body i).events := by
  unfold asyncRetryRun at *
  rw [retryAux_trace, List.getElem?_map, List.getElem?_range hi]
  simp

-- The single gas-estimate event contributes no fetches and no broadcasts.

theorem estGasBody_mem (gasLimit : Nat) (est : Except PyErr Nat) (e : Ev)
    (he : e ∈ (estimateGasBody gasLimit est).events) :
    ∃ res, e = .gasEstimate res := by
  cases est <;> simp [estimateGasBody] at he <;> exact ⟨_, he⟩

theorem countP_estGasBody_fetch (gasLimit : Nat) (est : Except PyErr Nat) :
    ((estimateGasBody gasLimit est).events).countP isFetchEv = 0 := by
  cases est <;> simp [estimateGasBody, isFetchEv]

theorem countP_estGasBody_broadcast (gasLimit : Nat)
    (est : Except PyErr Nat) :
    ((estimateGasBody gasLimit est).events).countP isBroadcastEv = 0 := by
  cases est <;> simp [estimateGasBody, isBroadcastEv]

-- Per-body event facts for `send_native_token`.

theorem sendNativeTokenBody_fetch_count (cfg : Settings) (env : NetEnv)
    (fromKey toAddr : String) (amountWei : Nat) :
    countFetch (sendNativeTokenBody cfg env fromKey toAddr amountWei).events
      = 1 := by
  unfold sendNativeTokenBody countFetch
  simp only [estimate_gas_eq, RunOut.allE, List.flatten_cons,
    List.flatten_nil, List.append_nil]
  split
  · simp [isFetchEv]
  · split
    · simp [List.countP_cons, List.countP_append, isFetchEv,
        countP_estGasBody_fetch]
    · split
      · simp [List.countP_cons, List.countP_append, isFetchEv,
          countP_estGasBody_fetch]
      · split <;>
          simp [List.countP_cons, List.countP_append, isFetchEv,
            countP_estGasBody_fetch]

theorem sendNativeTokenBody_broadcast_le (cfg : Settings) (env : NetEnv)
    (fromKey toAddr : String) (amountWei : Nat) :
    countBroadcast
      (sendNativeTokenBody cfg env fromKey toAddr amountWei).events ≤ 1 := by
  unfold sendNativeTokenBody countBroadcast
  simp only [estimate_gas_eq, RunOut.allE, List.flatten_cons,
    List.flatten_nil, List.append_nil]
  split
  · simp [isBroadcastEv]
  · split
    · simp [List.countP_cons, List.countP_append, isBroadcastEv,
        countP_estGasBody_broadcast]
    · split
      · simp [List.countP_cons, List.countP_append, isBroadcastEv,
          countP_estGasBody_broadcast]
      · split <;>
          simp [List.countP_cons, List.countP_append, isBroadcastEv,
            countP_estGasBody_broadcast]

-- Per-body event facts for `transfer_erc20`.

theorem transferErc20Body_fetch_count (cfg : Settings) (env : NetEnv)
    (fromKey toAddr : String) (amount : Nat) (tokenAddr : String) :
    countFetch
      (transferErc20Body cfg env fromKey toAddr amount tokenAddr).events
      = 1 := by
  unfold transferErc20Body countFetch
  simp only [estimate_gas_eq, RunOut.allE, List.flatten_cons,
    List.flatten_nil, List.append_nil]
  split
  · simp [isFetchEv]
  · split
    · simp [List.countP_cons, List.countP_append, isFetchEv,
        countP_estGasBody_fetch]
    · split
      · simp [List.countP_cons, List.countP_append, isFetchEv,
          countP_estGasBody_fetch]
      · split <;>
          simp [List.countP_cons, List.countP_append, isFetchEv,
            countP_estGasBody_fetch]

theorem transferErc20Body_broadcast_le (cfg : Settings) (env : NetEnv)
    (fromKey toAddr : String) (amount : Nat) (tokenAddr : String) :
    countBroadcast
      (transferErc20Body cfg env fromKey toAddr amount tokenAddr).events
      ≤ 1 := by
  unfold transferErc20Body countBroadcast
  simp only [estimate_gas_eq, RunOut.allE, List.flatten_cons,
    List.flatten_nil, List.append_nil]
  split
  · simp [isBroadcastEv]
  · split
    · simp [List.countP_cons, List.countP_append, isBroadcastEv,
        countP_estGasBody_broadcast]
    · split
      · simp [List.countP_cons, List.countP_append, isBroadcastEv,
          countP_estGasBody_broadcast]
      · split <;>
          simp [List.countP_cons, List.countP_append, isBroadcastEv,
            countP_estGasBody_broadcast]

-- Per-body event facts for `get_balance`.

theorem getBalanceBody_broadcast_zero (env : NetEnv)
    (addr tokenAddr : String) :
    countBroadcast (getBalanceBody env addr tokenAddr).events = 0 := by
  simp [getBalanceBody, countBroadcast, isBroadcastEv]

theorem getBalanceBody_events (env : NetEnv) (addr tokenAddr : String)
    (e : Ev) (he : e ∈ (getBalanceBody env addr tokenAddr).events) :
    ∃ res, e = .balanceOfCall tokenAddr addr res := by
  simp [getBalanceBody] at he
  exact ⟨_, he⟩

-- The nonce a broadcast transaction carries is the one fetched by the same
-- body execution.

theorem broadcastNative_not_mem_estGas (gasLimit : Nat)
    (est : Except PyErr Nat) (t : Txn) (res : Except PyErr String) :
    Ev.broadcastNative t res ∉ (estimateGasBody gasLimit est).events := by
  cases est <;> simp [estimateGasBody]

theorem broadcastToken_not_mem_estGas (gasLimit : Nat)
    (est : Except PyErr Nat) (t : TokenTxn) (res : Except PyErr String) :
    Ev.broadcastToken t res ∉ (estimateGasBody gasLimit est).events := by
  cases est <;> simp [estimateGasBody]

theorem sendNativeTokenBody_broadcast_nonce (cfg : Settings) (env : NetEnv)
    (fromKey toAddr : String) (amountWei : Nat) (t : Txn)
    (res : Except PyErr String)
    (hmem : Ev.broadcastNative t res ∈
      (sendNativeTokenBody cfg env fromKey toAddr amountWei).events) :
    env.transactionCount (addressOfKey fromKey) = .ok t.nonce := by
  unfold sendNativeTokenBody at hmem
  simp only [estimate_gas_eq, RunOut.allE, List.flatten_cons,
    List.flatten_nil, List.append_nil, List.cons_append, List.append_assoc,
    List.singleton_append] at hmem
  revert hmem
  split
  · intro hmem
    simp at hmem
  · rename_i nonce hnonce
    split
    · intro hmem
      rcases List.mem_cons.mp hmem with h | hmem
      · exact absurd h (by simp)
      rcases List.mem_append.mp hmem with h | h
      · exact absurd h (broadcastNative_not_mem_estGas _ _ _ _)
      · have h2 := List.mem_singleton.mp h
        injection h2 with h3 h4
        subst h3
        exact hnonce
    · split
      · intro hmem
        rcases List.mem_cons.mp hmem with h | hmem
        · exact absurd h (by simp)
        rcases List.mem_append.mp hmem with h | h
        · exact absurd h (broadcastNative_not_mem_estGas _ _ _ _)
        rcases List.mem_cons.mp h with h | h
        · injection h with h3 h4
          subst h3
          exact hnonce
        · have h2 := List.mem_singleton.mp h
          exact absurd h2 (by simp)
      · split
        · intro hmem
          rcases List.mem_cons.mp hmem with h | hmem
          · exact absurd h (by simp)
          rcases List.mem_append.mp hmem with h | h
          · exact absurd h (broadcastNative_not_mem_estGas _ _ _ _)
          rcases List.mem_cons.mp h with h | h
          · injection h with h3 h4
            subst h3
            exact hnonce
          · have h2 := List.mem_singleton.mp h
            exact absurd h2 (by simp)
        · intro hmem
          rcases List.mem_cons.mp hmem with h | hmem
          · exact absurd h (by simp)
          rcases List.mem_append.mp hmem with h | h
          · exact absurd h (broadcastNative_not_mem_estGas _ _ _ _)
          rcases List.mem_cons.mp h with h | h
          · injection h with h3 h4
            subst h3
            exact hnonce
          · have h2 := List.mem_singleton.mp h
            exact absurd h2 (by simp)

theorem transferErc20Body_broadcast_nonce (cfg : Settings) (env : NetEnv)
    (fromKey toAddr : String) (amount : Nat) (tokenAddr : String)
    (t : TokenTxn) (res : Except PyErr String)
    (hmem : Ev.broadcastToken t res ∈
      (transferErc20Body cfg env fromKey toAddr amount tokenAddr).events) :
    env.transactionCount (addressOfKey fromKey) = .ok t.nonce := by
  unfold transferErc20Body at hmem
  simp only [estimate_gas_eq, RunOut.allE, List.flatten_cons,
    List.flatten_nil, List.append_nil, List.cons_append, List.append_assoc,
    List.singleton_append, buildTransaction] at hmem
  revert hmem
  split
  · intro hmem
    simp at hmem
  · rename_i nonce hnonce
    split
    · intro hmem
      rcases List.mem_cons.mp hmem with h | hmem
      · exact absurd h (by simp)
      rcases List.mem_cons.mp hmem with h | hmem
      · exact absurd h (by simp)
      rcases List.mem_append.mp hmem with h | h
      · exact absurd h (broadcastToken_not_mem_estGas _ _ _ _)
      · have h2 := List.mem_singleton.mp h
        injection h2 with h3 h4
        subst h3
        exact hnonce
    · split
      · intro hmem
        rcases List.mem_cons.mp hmem with h | hmem
        · exact absurd h (by simp)
        rcases List.mem_cons.mp hmem with h | hmem
        · exact absurd h (by simp)
        rcases List.mem_append.mp hmem with h | h
        · exact absurd h (broadcastToken_not_mem_estGas _ _ _ _)
        rcases List.mem_cons.mp h with h | h
        · injection h with h3 h4
          subst h3
          exact hnonce
        · have h2 := List.mem_singleton.mp h
          exact absurd h2 (by simp)
      · split
        · intro hmem
          rcases List.mem_cons.mp hmem with h | hmem
          · exact absurd h (by simp)
          rcases List.mem_cons.mp hmem with h | hmem
          · exact absurd h (by simp)
          rcases List.mem_append.mp hmem with h | h
          · exact absurd h (broadcastToken_not_mem_estGas _ _ _ _)
          rcases List.mem_cons.mp h with h | h
          · injection h with h3 h4
            subst h3
            exact hnonce
          · have h2 := List.mem_singleton.mp h
            exact absurd h2 (by simp)
        · intro hmem
          rcases List.mem_cons.mp hmem with h | hmem
          · exact absurd h (by simp)
          rcases List.mem_cons.mp hmem with h | hmem
          · exact absurd h (by simp)
          rcases List.mem_append.mp hmem with h | h
          · exact absurd h (broadcastToken_not_mem_estGas _ _ _ _)
          rcases List.mem_cons.mp h with h | h
          · injection h with h3 h4
            subst h3
            exact hnonce
          · have h2 := List.mem_singleton.mp h
            exact absurd h2 (by simp)

/-- A trace entry of a run is the event list of the corresponding body
execution. -/
theorem asyncRetryRun_trace_entry {α : Type} (maxRetries : Nat) (delay : ℚ)
    (body : Nat → AttemptOut α) (i : Nat) (evs : List Ev)
    (h : (asyncRetryRun maxRetries delay body).trace[i]? = some evs) :
    evs = (body i).events := by
  unfold asyncRetryRun at h
  rw [retryAux_trace, List.getElem?_map] at h
  by_cases hi : i < (retryAux body delay 0 maxRetries).attempts
  · rw [List.getElem?_range hi] at h
    simp only [Option.map, Nat.zero_add] at h
    exact (Option.some.inj h).symm
  · rw [List.getElem?_eq_none (by simpa using Nat.le_of_not_lt hi)] at h
    cases h

-- `estimate_gas` failure makes the native submission fall back to the
-- configured gas limit and still broadcast (the initial dict already has
-- `gas = settings.gas_limit`, and a failed estimate re-installs it).

theorem sendNativeTokenBody_estimate_fallback (cfg : Settings)
    (env : NetEnv) (fromKey toAddr : String) (amountWei nonce : Nat)
    (e : PyErr)
    (hnonce : env.transactionCount (addressOfKey fromKey) = .ok nonce)
    (hest : env.estimateNative ⟨nonce, toAddr, amountWei, cfg.gasLimit,
      toWeiGwei cfg.gasPriceGwei, cfg.chainId⟩ = .error e) :
    ∃ res, Ev.broadcastNative ⟨nonce, toAddr, amountWei, cfg.gasLimit,
      toWeiGwei cfg.gasPriceGwei, cfg.chainId⟩ res ∈
        (sendNativeTokenBody cfg env fromKey toAddr amountWei).events := by
  unfold sendNativeTokenBody
  simp only [hnonce, estimate_gas_eq, RunOut.allE, List.flatten_cons,
    List.flatten_nil, List.append_nil, List.cons_append, List.append_assoc,
    List.singleton_append, hest, estimateGasValue]
  split
  · rename_i e2 h2
    exact ⟨.error e2, by simp⟩
  · rename_i txh h2
    split
    · rename_i e3 h3
      exact ⟨.ok txh, by simp⟩
    · split
      · exact ⟨.ok txh, by simp⟩
      · exact ⟨.ok txh, by simp⟩

-- The params dict `transfer_erc20` passes to `build_transaction` always
-- carries the gas PRICE in its `gas` field and the freshly fetched nonce.

theorem transferErc20Body_buildTxn_gas (cfg : Settings) (env : NetEnv)
    (fromKey toAddr : String) (amount : Nat) (tokenAddr : String)
    (p : BuildParams)
    (hmem : Ev.buildTxn p ∈
      (transferErc20Body cfg env fromKey toAddr amount tokenAddr).events) :
    p.gas = toWeiGwei cfg.gasPriceGwei ∧
      env.transactionCount (addressOfKey fromKey) = .ok p.nonce := by
  unfold transferErc20Body at hmem
  simp only [estimate_gas_eq, RunOut.allE, List.flatten_cons,
    List.flatten_nil, List.append_nil, List.cons_append, List.append_assoc,
    List.singleton_append, buildTransaction] at hmem
  revert hmem
  split
  · intro hmem
    simp at hmem
  · rename_i nonce hnonce
    split
    · intro hmem
      rcases List.mem_cons.mp hmem with h | hmem
      · exact absurd h (by simp)
      rcases List.mem_cons.mp hmem with h | hmem
      · injection h with h3
        subst h3
        exact ⟨rfl, hnonce⟩
      rcases List.mem_append.mp hmem with h | h
      · obtain ⟨r2, hr2⟩ := estGasBody_mem _ _ _ h
        exact absurd hr2 (by simp)
      · have h2 := List.mem_singleton.mp h
        exact absurd h2 (by simp)
    · split
      · intro hmem
        rcases List.mem_cons.mp hmem with h | hmem
        · exact absurd h (by simp)
        rcases List.mem_cons.mp hmem with h | hmem
        · injection h with h3
          subst h3
          exact ⟨rfl, hnonce⟩
        rcases List.mem_append.mp hmem with h | h
        · obtain ⟨r2, hr2⟩ := estGasBody_mem _ _ _ h
          exact absurd hr2 (by simp)
        rcases List.mem_cons.mp h with h | h
        · exact absurd h (by simp)
        · have h2 := List.mem_singleton.mp h
          exact absurd h2 (by simp)
      · split
        · intro hmem
          rcases List.mem_cons.mp hmem with h | hmem
          · exact absurd h (by simp)
          rcases List.mem_cons.mp hmem with h | hmem
          · injection h with h3
            subst h3
            exact ⟨rfl, hnonce⟩
          rcases List.mem_append.mp hmem with h | h
          · obtain ⟨r2, hr2⟩ := estGasBody_mem _ _ _ h
            exact absurd hr2 (by simp)
          rcases List.mem_cons.mp h with h | h
          · exact absurd h (by simp)
          · have h2 := List.mem_singleton.mp h
            exact absurd h2 (by simp)
        · intro hmem
          rcases List.mem_cons.mp hmem with h | hmem
          · exact absurd h (by simp)
          rcases List.mem_cons.mp hmem with h | hmem
          · injection h with h3
            subst h3
            exact ⟨rfl, hnonce⟩
          rcases List.mem_append.mp hmem with h | h
          · obtain ⟨r2, hr2⟩ := estGasBody_mem _ _ _ h
            exact absurd hr2 (by simp)
          rcases List.mem_cons.mp h with h | h
          · exact absurd h (by simp)
          · have h2 := List.mem_singleton.mp h
            exact absurd h2 (by simp)

theorem transferErc20Body_buildTxn_exists (cfg : Settings) (env : NetEnv)
    (fromKey toAddr : String) (amount : Nat) (tokenAddr : String)
    (nonce : Nat)
    (hnonce : env.transactionCount (addressOfKey fromKey) = .ok nonce) :
    Ev.buildTxn ⟨addressOfKey fromKey, nonce, toWeiGwei cfg.gasPriceGwei,
      cfg.chainId⟩ ∈
      (transferErc20Body cfg env fromKey toAddr amount tokenAddr).events := by
  unfold transferErc20Body
  simp only [hnonce, estimate_gas_eq, RunOut.allE, List.flatten_cons,
    List.flatten_nil, List.append_nil, List.cons_append, List.append_assoc,
    List.singleton_append, buildTransaction]
  split
  · simp
  · split
    · simp
    · split <;> simp

-- Concrete node behaviours used to instantiate the theorems.

/-- A node that always answers with a transient network failure. -/
def netFailEnv : NetEnv :=
  ⟨fun _ => .error .networkError, fun _ => .error .networkError,
   fun _ => .error .networkError, fun _ => .error .networkError,
   fun _ => .error .networkError, fun _ => .error .timeoutError,
   fun _ _ => .error .networkError, fun _ => .error .networkError⟩

/-- A node that rejects every broadcast. -/
def rejectEnv : NetEnv :=
  ⟨fun _ => .ok 7, fun _ => .ok 21000, fun _ => .ok 60000,
   fun _ => .error .rejectedError, fun _ => .error .rejectedError,
   fun _ => .ok ⟨1⟩, fun _ _ => .ok 1000, fun _ => .ok 1000⟩

/-- A node where every broadcast is mined but the receipt reports failure
(status 0). -/
def revertEnv : NetEnv :=
  ⟨fun _ => .ok 7, fun _ => .ok 21000, fun _ => .ok 60000,
   fun _ => .ok "0xdead", fun _ => .ok "0xdead", fun _ => .ok ⟨0⟩,
   fun _ _ => .ok 1000, fun _ => .ok 1000⟩

/-- A healthy node: nonce 7, gas estimates succeed, broadcasts are mined
with success receipts, token balance 100, native balance 5. -/
def happyEnv : NetEnv :=
  ⟨fun _ => .ok 7, fun _ => .ok 21000, fun _ => .ok 60000,
   fun _ => .ok "0xbeef", fun _ => .ok "0xbeef", fun _ => .ok ⟨1⟩,
   fun _ _ => .ok 100, fun _ => .ok 5⟩

/-- A healthy node whose token-contract `balanceOf` answers 7 at every
address while the native balance is 5, separating the two reads. -/
def sentinelEnv : NetEnv :=
  ⟨fun _ => .ok 7, fun _ => .ok 21000, fun _ => .ok 60000,
   fun _ => .ok "0xbeef", fun _ => .ok "0xbeef", fun _ => .ok ⟨1⟩,
   fun _ _ => .ok 7, fun _ => .ok 5⟩

/-- A node whose gas estimation always fails while everything else works. -/
def estFailEnv : NetEnv :=
  ⟨fun _ => .ok 0, fun _ => .error .networkError,
   fun _ => .error .networkError, fun _ => .ok "0xbeef",
   fun _ => .ok "0xbeef", fun _ => .ok ⟨1⟩, fun _ _ => .ok 100,
   fun _ => .ok 5⟩

/-- C5: gas estimation never aborts the submission: `estimate_gas` always
returns a value — the network estimate increased by 20% (truncated) on
success, the configured default `gas_limit` on any failure — and in
`send_native_token` a failed estimate still leads to a broadcast whose
transaction carries the default gas limit (the dict's initial
`"gas": settings.gas_limit` is re-installed by the fallback). -/
theorem C5_estimate_gas_never_fatal :
    (∀ (gasLimit : Nat) (est : Except PyErr Nat),
      ∃ v, (estimate_gas gasLimit est).result = .ok v) ∧
    (∀ (gasLimit g : Nat),
      (estimate_gas gasLimit (.ok g)).result = .ok (g * 12 / 10)) ∧
    (∀ (gasLimit : Nat) (e : PyErr),
      (estimate_gas gasLimit (.error e)).result = .ok gasLimit) ∧
    (∀ (cfg : Settings) (env : NetEnv) (fromKey toAddr : String)
      (amountWei nonce : Nat) (e : PyErr),
      env.transactionCount (addressOfKey fromKey) = .ok nonce →
      env.estimateNative ⟨nonce, toAddr, amountWei, cfg.gasLimit,
        toWeiGwei cfg.gasPriceGwei, cfg.chainId⟩ = .error e →
      ∃ res, Ev.broadcastNative ⟨nonce, toAddr, amountWei, cfg.gasLimit,
        toWeiGwei cfg.gasPriceGwei, cfg.chainId⟩ res ∈
          (sendNativeTokenBody cfg env fromKey toAddr amountWei).events) := by
  refine ⟨?_, ?_, ?_, ?_⟩
  · intro gasLimit est
    rw [estimate_gas_eq]
    exact ⟨_, rfl⟩
  · intro gasLimit g
    simp [estimate_gas_eq, estimateGasValue]
  · intro gasLimit e
    simp [estimate_gas_eq, estimateGasValue]
  · intro cfg env fromKey toAddr amountWei nonce e hnonce hest
    exact sendNativeTokenBody_estimate_fallback cfg env fromKey toAddr
      amountWei nonce e hnonce hest

/-- Witness for C5 at concrete inputs: a successful estimate of 100 yields
120, a failed estimate yields the default 100000, and with a node whose
estimation always fails the native-send body still broadcasts a transaction
carrying the default gas limit. -/
theorem C5_witness :
    (estimate_gas 100000 (.ok 100)).result = .ok 120 ∧
    (estimate_gas 100000 (.error .networkError)).result = .ok 100000 ∧
    ∃ res, Ev.broadcastNative ⟨0, "0xbob", 5, defaultSettings.gasLimit,
      toWeiGwei defaultSettings.gasPriceGwei, defaultSettings.chainId⟩ res ∈
        (sendNativeTokenBody defaultSettings estFailEnv "0xkey" "0xbob"
          5).events :=
  ⟨C5_estimate_gas_never_fatal.2.1 100000 100,
   C5_estimate_gas_never_fatal.2.2.1 100000 .networkError,
   C5_estimate_gas_never_fatal.2.2.2 defaultSettings estFailEnv "0xkey"
     "0xbob" 5 0 .networkError (by decide) (by decide)⟩

/-- C8: in `transfer_erc20`, the params dict passed to
`build_transaction` carries the gas PRICE (`w3.to_wei(settings.
gas_price_gwei, "gwei")`) in its `"gas"` field — the field meant for the
gas limit — and supplies no separate gasPrice key at all (`BuildParams`
has no such field): every `buildTxn` event of every attempt has
`gas = toWeiGwei cfg.gasPriceGwei`, and an attempt that fetched nonce `n`
does emit such a params dict. -/
theorem C8_gas_price_conflation (cfg : Settings) (env : Nat → NetEnv)
    (fromKey toAddr : String) (amount : Nat) (tokenAddr : String) :
    (∀ i evs,
      (transfer_erc20 cfg env fromKey toAddr amount tokenAddr).trace[i]? =
        some evs →
      ∀ p, Ev.buildTxn p ∈ evs →
        p.gas = toWeiGwei cfg.gasPriceGwei ∧
          (env i).transactionCount (addressOfKey fromKey) = .ok p.nonce) ∧
    (∀ i evs nonce,
      (transfer_erc20 cfg env fromKey toAddr amount tokenAddr).trace[i]? =
        some evs →
      (env i).transactionCount (addressOfKey fromKey) = .ok nonce →
      Ev.buildTxn ⟨addressOfKey fromKey, nonce, toWeiGwei cfg.gasPriceGwei,
        cfg.chainId⟩ ∈ evs) := by
  constructor
  · intro i evs htr p hmem
    have hevs := asyncRetryRun_trace_entry 3 2 _ i evs htr
    subst hevs
    exact transferErc20Body_buildTxn_gas cfg (env i) fromKey toAddr amount
      tokenAddr p hmem
  · intro i evs nonce htr hnonce
    have hevs := asyncRetryRun_trace_entry 3 2 _ i evs htr
    subst hevs
    exact transferErc20Body_buildTxn_exists cfg (env i) fromKey toAddr
      amount tokenAddr nonce hnonce

/-- Witness for C8 under the healthy node: with the default settings the
params dict of attempt 0 carries `gas = 100000000` — the gas price in wei
(0.1 gwei), not the configured gas limit 100000. -/
theorem C8_witness :
    Ev.buildTxn ⟨addressOfKey "0xkey", 7,
        toWeiGwei defaultSettings.gasPriceGwei, defaultSettings.chainId⟩ ∈
      (transferErc20Body defaultSettings happyEnv "0xkey" "0xbob" 3
        "0xtok").events ∧
    toWeiGwei defaultSettings.gasPriceGwei = 100000000 ∧
    defaultSettings.gasLimit = 100000 :=
  ⟨(C8_gas_price_conflation defaultSettings (fun _ => happyEnv) "0xkey"
      "0xbob" 3 "0xtok").2 0
      (transferErc20Body defaultSettings happyEnv "0xkey" "0xbob" 3
        "0xtok").events 7 (by decide) (by decide),
   by decide, by decide⟩

/-- C9: decrypting an encrypted private key returns the original key
(`decrypt_private_key (encrypt_private_key k) = k`), and
`decrypt_private_key` raises `PrivateKeyEncryptionError` only on a token
that is not a valid encryption of any key under the configured key. -/
theorem C9_crypto_roundtrip (cfgKey : List Char) (k : String) :
    decrypt_private_key cfgKey (encrypt_private_key cfgKey k) = .ok k ∧
    (∀ token : String,
      (∃ m : String, encrypt_private_key cfgKey m = token) →
      decrypt_private_key cfgKey token ≠ .error .privateKeyEncryption) := by
  constructor
  · unfold decrypt_private_key encrypt_private_key fernetDecrypt
      fernetEncrypt
    simp [List.take_left, List.drop_left]
  · intro token hm
    obtain ⟨m, hm⟩ := hm
    rw [← hm]
    unfold decrypt_private_key encrypt_private_key fernetDecrypt
      fernetEncrypt
    simp [List.take_left, List.drop_left]

/-- Witness for C9 at a concrete key and secret. -/
theorem C9_witness :
    decrypt_private_key ['k', '0']
        (encrypt_private_key ['k', '0'] "0xsecret") = .ok "0xsecret" ∧
    decrypt_private_key ['k', '0']
        (encrypt_private_key ['k', '0'] "0xsecret") ≠
      .error .privateKeyEncryption :=
  ⟨(C9_crypto_roundtrip ['k', '0'] "0xsecret").1,
   (C9_crypto_roundtrip ['k', '0'] "0xsecret").2
     (encrypt_private_key ['k', '0'] "0xsecret") ⟨"0xsecret", rfl⟩⟩

/-- C1: for both submissions (native and token transfer), a failing attempt
makes `async_retry(3, 2.0)` re-run the whole body — the per-attempt traces
are exactly the bodies' event lists, so the sequence restarts from the
nonce fetch; at most 3 attempts and at most 3 broadcasts happen; every
inter-attempt delay is the fixed 2 (no doubling); and when all 3 attempts
fail, the surfaced error is the last attempt's. -/
theorem C1_retry_policy (cfg : Settings) (env : Nat → NetEnv)
    (fromKey toAddr : String) (amountWei amount : Nat) (tokenAddr : String) :
    (send_native_token cfg env fromKey toAddr amountWei).attempts ≤ 3 ∧
    countBroadcast
      (send_native_token cfg env fromKey toAddr amountWei).allE ≤ 3 ∧
    (∀ d ∈ (send_native_token cfg env fromKey toAddr amountWei).sleeps,
      d = 2) ∧
    (send_native_token cfg env fromKey toAddr amountWei).trace =
      (List.range
        (send_native_token cfg env fromKey toAddr amountWei).attempts).map
        (fun i =>
          (sendNativeTokenBody cfg (env i) fromKey toAddr amountWei).events) ∧
    ((∀ i, i < 3 → ∃ e,
        (sendNativeTokenBody cfg (env i) fromKey toAddr amountWei).result =
          .error e) →
      (send_native_token cfg env fromKey toAddr amountWei).result =
        (sendNativeTokenBody cfg (env 2) fromKey toAddr amountWei).result ∧
      (send_native_token cfg env fromKey toAddr amountWei).attempts = 3) ∧
    (transfer_erc20 cfg env fromKey toAddr amount tokenAddr).attempts ≤ 3 ∧
    countBroadcast
      (transfer_erc20 cfg env fromKey toAddr amount tokenAddr).allE ≤ 3 ∧
    (∀ d ∈ (transfer_erc20 cfg env fromKey toAddr amount tokenAddr).sleeps,
      d = 2) ∧
    (transfer_erc20 cfg env fromKey toAddr amount tokenAddr).trace =
      (List.range
        (transfer_erc20 cfg env fromKey toAddr amount tokenAddr).attempts).map
        (fun i =>
          (transferErc20Body cfg (env i) fromKey toAddr amount
            tokenAddr).events) ∧
    ((∀ i, i < 3 → ∃ e,
        (transferErc20Body cfg (env i) fromKey toAddr amount
          tokenAddr).result = .error e) →
      (transfer_erc20 cfg env fromKey toAddr amount tokenAddr).result =
        (transferErc20Body cfg (env 2) fromKey toAddr amount
          tokenAddr).result ∧
      (transfer_erc20 cfg env fromKey toAddr amount tokenAddr).attempts
        = 3) := by
  refine ⟨?_, ?_, ?_, ?_, ?_, ?_, ?_, ?_, ?_, ?_⟩
  · exact retryAux_attempts_le _ 2 0 3
  · exact le_trans
      (asyncRetryRun_countP_le isBroadcastEv 3 2 _
        (fun i => sendNativeTokenBody_broadcast_le cfg (env i) fromKey
          toAddr amountWei))
      (retryAux_attempts_le _ 2 0 3)
  · exact retryAux_sleeps_fixed _ 2 0 3
  · have h := retryAux_trace
      (fun i => sendNativeTokenBody cfg (env i) fromKey toAddr amountWei)
      2 0 3
    simpa using h
  · intro hf
    have h := retryAux_all_fail
      (fun i => sendNativeTokenBody cfg (env i) fromKey toAddr amountWei)
      2 0 3 (by omega) (fun i hi => by simpa using hf i hi)
    exact ⟨by simpa using h.1, h.2⟩
  · exact retryAux_attempts_le _ 2 0 3
  · exact le_trans
      (asyncRetryRun_countP_le isBroadcastEv 3 2 _
        (fun i => transferErc20Body_broadcast_le cfg (env i) fromKey
          toAddr amount tokenAddr))
      (retryAux_attempts_le _ 2 0 3)
  · exact retryAux_sleeps_fixed _ 2 0 3
  · have h := retryAux_trace
      (fun i => transferErc20Body cfg (env i) fromKey toAddr amount
        tokenAddr) 2 0 3
    simpa using h
  · intro hf
    have h := retryAux_all_fail
      (fun i => transferErc20Body cfg (env i) fromKey toAddr amount
        tokenAddr) 2 0 3 (by omega) (fun i hi => by simpa using hf i hi)
    exact ⟨by simpa using h.1, h.2⟩

/-- Witness for C1 against a node that always fails with `NetworkError`:
all 3 attempts run, the sleeps are the fixed delay 2, and the surfaced
error is the last attempt's. -/
theorem C1_witness :
    (send_native_token defaultSettings (fun _ => netFailEnv) "0xkey"
      "0xbob" 5).attempts = 3 ∧
    (send_native_token defaultSettings (fun _ => netFailEnv) "0xkey"
      "0xbob" 5).result =
      (sendNativeTokenBody defaultSettings netFailEnv "0xkey" "0xbob"
        5).result ∧
    (∀ d ∈ (send_native_token defaultSettings (fun _ => netFailEnv)
      "0xkey" "0xbob" 5).sleeps, d = 2) := by
  have h := C1_retry_policy defaultSettings (fun _ => netFailEnv) "0xkey"
    "0xbob" 5 3 "0xtok"
  have h5 := h.2.2.2.2.1 (fun i _ => ⟨.networkError, by decide⟩)
  exact ⟨h5.2, h5.1, h.2.2.1⟩

/-- C2: in every run (native or token), each retry attempt re-fetches the
nonce — the nonce-fetch count over the whole run is at least the attempt
count — and a transaction broadcast in attempt `i` carries exactly the
nonce that attempt `i`'s fetch returned, never one from a prior attempt. -/
theorem C2_fresh_nonce (cfg : Settings) (env : Nat → NetEnv)
    (fromKey toAddr : String) (amountWei amount : Nat) (tokenAddr : String) :
    ((send_native_token cfg env fromKey toAddr amountWei).attempts ≤
      countFetch (send_native_token cfg env fromKey toAddr amountWei).allE) ∧
    (∀ i evs,
      (send_native_token cfg env fromKey toAddr amountWei).trace[i]? =
        some evs →
      ∀ t res, Ev.broadcastNative t res ∈ evs →
        (env i).transactionCount (addressOfKey fromKey) = .ok t.nonce) ∧
    ((transfer_erc20 cfg env fromKey toAddr amount tokenAddr).attempts ≤
      countFetch
        (transfer_erc20 cfg env fromKey toAddr amount tokenAddr).allE) ∧
    (∀ i evs,
      (transfer_erc20 cfg env fromKey toAddr amount tokenAddr).trace[i]? =
        some evs →
      ∀ t res, Ev.broadcastToken t res ∈ evs →
        (env i).transactionCount (addressOfKey fromKey) = .ok t.nonce) := by
  refine ⟨?_, ?_, ?_, ?_⟩
  · exact asyncRetryRun_countP_ge isFetchEv 3 2 _
      (fun i => le_of_eq (sendNativeTokenBody_fetch_count cfg (env i)
        fromKey toAddr amountWei).symm)
  · intro i evs htr t res hmem
    have hevs := asyncRetryRun_trace_entry 3 2 _ i evs htr
    subst hevs
    exact sendNativeTokenBody_broadcast_nonce cfg (env i) fromKey toAddr
      amountWei t res hmem
  · exact asyncRetryRun_countP_ge isFetchEv 3 2 _
      (fun i => le_of_eq (transferErc20Body_fetch_count cfg (env i)
        fromKey toAddr amount tokenAddr).symm)
  · intro i evs htr t res hmem
    have hevs := asyncRetryRun_trace_entry 3 2 _ i evs htr
    subst hevs
    exact transferErc20Body_broadcast_nonce cfg (env i) fromKey toAddr
      amount tokenAddr t res hmem

/-- Witness for C2 against the healthy node: the single successful attempt
fetched nonce 7 and its broadcast transaction carries exactly that nonce. -/
theorem C2_witness :
    ((send_native_token defaultSettings (fun _ => happyEnv) "0xkey"
      "0xbob" 5).attempts ≤
      countFetch (send_native_token defaultSettings (fun _ => happyEnv)
        "0xkey" "0xbob" 5).allE) ∧
    happyEnv.transactionCount (addressOfKey "0xkey") =
      .ok (Txn.mk 7 "0xbob" 5 25200 100000000 1000).nonce := by
  have h := C2_fresh_nonce defaultSettings (fun _ => happyEnv) "0xkey"
    "0xbob" 5 3 "0xtok"
  refine ⟨h.1, ?_⟩
  exact h.2.1 0
    (sendNativeTokenBody defaultSettings happyEnv "0xkey" "0xbob" 5).events
    (by decide) ⟨7, "0xbob", 5, 25200, 100000000, 1000⟩ (.ok "0xbeef")
    (by decide)

/-- C3 counterexample: against a node that rejects every broadcast
(`RejectedError`, as on a reused nonce or insufficient gas funds), the code
does NOT stop after one broadcast: `async_retry` catches every `Exception`,
so all 3 attempts broadcast and only then is the error surfaced — the
claim's "exactly one broadcast attempt" is false at this input. -/
theorem C3_counterexample :
    (send_native_token defaultSettings (fun _ => rejectEnv) "0xkey"
      "0xbob" 5).result = .error .rejectedError ∧
    countBroadcast (send_native_token defaultSettings (fun _ => rejectEnv)
      "0xkey" "0xbob" 5).allE = 3 ∧
    ¬ countBroadcast (send_native_token defaultSettings
      (fun _ => rejectEnv) "0xkey" "0xbob" 5).allE = 1 := by
  decide

/-- C3 (amended): a `RejectedError` from broadcast is caught by the retry
wrapper like any other exception: the whole sequence is retried, so when
every attempt's broadcast is rejected there are exactly 3 attempts, at most
3 broadcasts, and the last `RejectedError` is surfaced — the error is not
surfaced after a single broadcast. -/
theorem C3_rejected_is_retried (cfg : Settings) (env : Nat → NetEnv)
    (fromKey toAddr : String) (amountWei : Nat)
    (hf : ∀ i, i < 3 →
      (sendNativeTokenBody cfg (env i) fromKey toAddr amountWei).result =
        .error .rejectedError) :
    (send_native_token cfg env fromKey toAddr amountWei).result =
      .error .rejectedError ∧
    (send_native_token cfg env fromKey toAddr amountWei).attempts = 3 ∧
    countBroadcast
      (send_native_token cfg env fromKey toAddr amountWei).allE ≤ 3 := by
  have h := retryAux_all_fail
    (fun i => sendNativeTokenBody cfg (env i) fromKey toAddr amountWei)
    2 0 3 (by omega)
    (fun i hi => ⟨.rejectedError, by simpa using hf i hi⟩)
  refine ⟨?_, h.2, ?_⟩
  · exact h.1.trans (by simpa using hf 2 (by omega))
  · exact le_trans
      (asyncRetryRun_countP_le isBroadcastEv 3 2 _
        (fun i => sendNativeTokenBody_broadcast_le cfg (env i) fromKey
          toAddr amountWei))
      (retryAux_attempts_le _ 2 0 3)

/-- Witness for the amended C3 at the rejecting node. -/
theorem C3_witness :
    (send_native_token defaultSettings (fun _ => rejectEnv) "0xkey2"
      "0xbob" 5).result = .error .rejectedError ∧
    (send_native_token defaultSettings (fun _ => rejectEnv) "0xkey2"
      "0xbob" 5).attempts = 3 := by
  have h := C3_rejected_is_retried defaultSettings (fun _ => rejectEnv)
    "0xkey2" "0xbob" 5 (fun i _ => by
      show (sendNativeTokenBody defaultSettings rejectEnv "0xkey2" "0xbob"
        5).result = .error .rejectedError
      decide)
  exact ⟨h.1, h.2.1⟩

/-- C4 counterexample: against a node that mines every broadcast but whose
receipts report failure (status 0), the code raises the anonymous
`Exception("Transaction failed: ...")` (no `TransactionRevertedError` class
exists in the repository), and the retry wrapper catches it and re-runs the
whole submission: 3 attempts occur, not 1, so "no retry attempt is made"
is false at this input. -/
theorem C4_counterexample :
    (send_native_token defaultSettings (fun _ => revertEnv) "0xkey"
      "0xbob" 5).result = .error (.transactionFailed "0xdead") ∧
    (send_native_token defaultSettings (fun _ => revertEnv) "0xkey"
      "0xbob" 5).attempts = 3 ∧
    ¬ (send_native_token defaultSettings (fun _ => revertEnv) "0xkey"
      "0xbob" 5).attempts = 1 := by
  decide

/-- C4 (amended): when a broadcast succeeds but the receipt reports failure
status, the attempt raises the anonymous `Exception("Transaction failed:
<hash>")`; the retry wrapper treats it like any other exception and re-runs
the whole submission — when all 3 attempts end in a failed receipt, 3
attempts are made (re-broadcasting each time) and the last such exception
is the one surfaced. -/
theorem C4_revert_is_retried (cfg : Settings) (env : Nat → NetEnv)
    (fromKey toAddr : String) (amountWei : Nat) (hs : Nat → String)
    (hf : ∀ i, i < 3 →
      (sendNativeTokenBody cfg (env i) fromKey toAddr amountWei).result =
        .error (.transactionFailed (hs i))) :
    (send_native_token cfg env fromKey toAddr amountWei).result =
      .error (.transactionFailed (hs 2)) ∧
    (send_native_token cfg env fromKey toAddr amountWei).attempts = 3 := by
  have h := retryAux_all_fail
    (fun i => sendNativeTokenBody cfg (env i) fromKey toAddr amountWei)
    2 0 3 (by omega)
    (fun i hi => ⟨.transactionFailed (hs i), by simpa using hf i hi⟩)
  exact ⟨h.1.trans (by simpa using hf 2 (by omega)), h.2⟩

/-- Witness for the amended C4 at the reverting node. -/
theorem C4_witness :
    (send_native_token defaultSettings (fun _ => revertEnv) "0xkey2"
      "0xbob" 5).result = .error (.transactionFailed "0xdead") ∧
    (send_native_token defaultSettings (fun _ => revertEnv) "0xkey2"
      "0xbob" 5).attempts = 3 :=
  C4_revert_is_retried defaultSettings (fun _ => revertEnv) "0xkey2"
    "0xbob" 5 (fun _ => "0xdead") (fun i _ => by
      show (sendNativeTokenBody defaultSettings revertEnv "0xkey2" "0xbob"
        5).result = .error (.transactionFailed "0xdead")
      decide)

/-- C6: in `transfer_from_to`, when the sender's fetched balance is
strictly below the requested amount, `InsufficientBalanceError` is raised
and no broadcast happens — the emitted trace contains zero broadcast
events, so `transfer_erc20` was never reached. -/
theorem C6_insufficient_balance (cfg : Settings) (env : Nat → NetEnv)
    (db : List User) (fromName toName : String) (amount : Nat)
    (tokenAddr : String) (fromUser toUser : User) (bal : Nat)
    (hfu : get_user_by_name db fromName = .ok fromUser)
    (htu : get_user_by_name db toName = .ok toUser)
    (hb : (get_balance env fromUser.address tokenAddr).result = .ok bal)
    (hlt : bal < amount) :
    (transfer_from_to cfg env db fromName toName amount tokenAddr).1 =
      .error .insufficientBalance ∧
    countBroadcast
      (transfer_from_to cfg env db fromName toName amount tokenAddr).2
      = 0 := by
  unfold transfer_from_to
  simp only [hfu, htu, hb]
  rw [if_pos hlt]
  exact ⟨rfl,
    asyncRetryRun_countP_zero isBroadcastEv 3 2 _
      (fun i => getBalanceBody_broadcast_zero (env i) fromUser.address
        tokenAddr)⟩

/-- Witness for C6: balance 100, requested amount 150. -/
theorem C6_witness :
    (transfer_from_to defaultSettings (fun _ => happyEnv)
      [⟨"alice", "0xa", "0xka"⟩, ⟨"bob", "0xb", "0xkb"⟩] "alice" "bob"
      150 "0xtok").1 = .error .insufficientBalance ∧
    countBroadcast (transfer_from_to defaultSettings (fun _ => happyEnv)
      [⟨"alice", "0xa", "0xka"⟩, ⟨"bob", "0xb", "0xkb"⟩] "alice" "bob"
      150 "0xtok").2 = 0 :=
  C6_insufficient_balance defaultSettings (fun _ => happyEnv)
    [⟨"alice", "0xa", "0xka"⟩, ⟨"bob", "0xb", "0xkb"⟩] "alice" "bob" 150
    "0xtok" ⟨"alice", "0xa", "0xka"⟩ ⟨"bob", "0xb", "0xkb"⟩ 100
    (by decide) (by decide) (by decide) (by decide)

/-- C7 counterexample: `Web3Client.get_balance` has no native-asset
branch.  Against a node whose native balance at `0xowner` is 5 while the
token contract deployed at the zero-address sentinel answers
`balanceOf = 7`, `get_balance` called with the sentinel returns 7 — the
`balanceOf` decoding — and not the native balance 5 that the claim
requires for the sentinel; the native balance is only reachable through
the separate `get_native_balance`. -/
theorem C7_counterexample :
    (get_balance (fun _ => sentinelEnv) "0xowner"
      "0x0000000000000000000000000000000000000000").result = .ok 7 ∧
    (get_native_balance (fun _ => sentinelEnv) "0xowner").result =
      .ok 5 ∧
    ¬ (get_balance (fun _ => sentinelEnv) "0xowner"
        "0x0000000000000000000000000000000000000000").result =
      (get_native_balance (fun _ => sentinelEnv) "0xowner").result := by
  decide

/-- C7 (amended): for every address and token identifier — the native
sentinel included — `get_balance` always issues read-only
`balanceOf(address)` calls against the contract at the given token address
(its trace holds nothing else, in particular no native-balance read), and a
successful result is the integer decoded from one such call; the native
balance is returned only by the separate `get_native_balance` method. -/
theorem C7_balance_always_erc20 (env : Nat → NetEnv)
    (addr tokenAddr : String) :
    (∀ e ∈ (get_balance env addr tokenAddr).allE,
      ∃ res, e = .balanceOfCall tokenAddr addr res) ∧
    (∀ b, (get_balance env addr tokenAddr).result = .ok b →
      ∃ i, i < 3 ∧ (env i).balanceOf tokenAddr addr = .ok b) := by
  constructor
  · intro e he
    simp only [get_balance, asyncRetryRun, RunOut.allE] at he
    rw [List.mem_flatten] at he
    obtain ⟨l, hl, hel⟩ := he
    rw [retryAux_trace] at hl
    obtain ⟨i, _, rfl⟩ := List.mem_map.mp hl
    exact getBalanceBody_events (env (0 + i)) addr tokenAddr e hel
  · intro b hb
    obtain ⟨i, hi, hoki⟩ := retryAux_ok_source
      (fun i => getBalanceBody (env i) addr tokenAddr) 2 0 3 b hb
    exact ⟨i, hi, by simpa [getBalanceBody] using hoki⟩

/-- Witness for the amended C7 at the sentinel node: the one event of the
successful run is a `balanceOf` call, and the returned 7 comes from the
token contract's `balanceOf`, not from the native balance. -/
theorem C7_witness :
    (∃ res, Ev.balanceOfCall "0xtok" "0xowner" (.ok 7) =
      Ev.balanceOfCall "0xtok" "0xowner" res) ∧
    ∃ i, i < 3 ∧ sentinelEnv.balanceOf "0xtok" "0xowner" = .ok 7 :=
  ⟨(C7_balance_always_erc20 (fun _ => sentinelEnv) "0xowner" "0xtok").1
    (Ev.balanceOfCall "0xtok" "0xowner" (.ok 7)) (by decide),
   (C7_balance_always_erc20 (fun _ => sentinelEnv) "0xowner" "0xtok").2
    7 (by decide)⟩

/-- C10: `create_account` commits the user row before the faucet transfer:
when the name is new and every faucet-funding attempt fails, the call
surfaces `BlockchainError`, yet the committed database still contains the
new user — and a later `create_account` for the same name fails with
`AccountAlreadyExistsError`. -/
theorem C10_create_account_not_atomic (cfg : Settings)
    (env env2 : Nat → NetEnv) (fresh fresh2 : BlockchainAccount)
    (db : List User) (name : String)
    (hnew : db.any (fun u => u.name = name) = false)
    (hfail : ∀ i, i < 3 → ∃ e,
      (sendNativeTokenBody cfg (env i) cfg.faucetPrivateKey fresh.address
        (toWeiGwei cfg.initialFaucetGwei)).result = .error e) :
    (create_account cfg env fresh db name).1 = .error .blockchainError ∧
    (create_account cfg env fresh db name).2 =
      db ++ [⟨name, fresh.address, fresh.privateKey⟩] ∧
    (create_account cfg env2 fresh2 (create_account cfg env fresh db
      name).2 name).1 = .error .accountAlreadyExists := by
  have hrun : (send_native_token cfg env cfg.faucetPrivateKey fresh.address
      (toWeiGwei cfg.initialFaucetGwei)).result =
      (sendNativeTokenBody cfg (env 2) cfg.faucetPrivateKey fresh.address
        (toWeiGwei cfg.initialFaucetGwei)).result := by
    have h := retryAux_all_fail
      (fun i => sendNativeTokenBody cfg (env i) cfg.faucetPrivateKey
        fresh.address (toWeiGwei cfg.initialFaucetGwei)) 2 0 3 (by omega)
      (fun i hi => by simpa using hfail i hi)
    simpa using h.1
  obtain ⟨e2, he2⟩ := hfail 2 (by omega)
  have hres : (send_native_token cfg env cfg.faucetPrivateKey fresh.address
      (toWeiGwei cfg.initialFaucetGwei)).result = .error e2 :=
    hrun.trans he2
  have hgif : get_initial_fund cfg env
      ⟨name, fresh.address, fresh.privateKey⟩ =
      (.error .blockchainError,
        (send_native_token cfg env cfg.faucetPrivateKey fresh.address
          (toWeiGwei cfg.initialFaucetGwei)).allE) := by
    unfold get_initial_fund
    simp only [hres]
  have hcond : ¬ (db.any (fun u => u.name = name) = true) := by
    simp [hnew]
  have hmain : create_account cfg env fresh db name =
      (.error .blockchainError,
        db ++ [⟨name, fresh.address, fresh.privateKey⟩]) := by
    unfold create_account
    rw [if_neg hcond]
    simp only [hgif]
  refine ⟨by rw [hmain], by rw [hmain], ?_⟩
  rw [hmain]
  have hcond2 : ((db ++ [(⟨name, fresh.address, fresh.privateKey⟩ :
      User)]).any (fun u => u.name = name)) = true := by
    simp [List.any_append]
  unfold create_account
  rw [if_pos hcond2]

/-- Witness for C10: empty database, new name "alice", a node that always
fails — the user row survives the failed faucet transfer and a second
creation with the same name is rejected. -/
theorem C10_witness :
    (create_account defaultSettings (fun _ => netFailEnv) ⟨"0xa", "0xka"⟩
      [] "alice").1 = .error .blockchainError ∧
    (create_account defaultSettings (fun _ => netFailEnv) ⟨"0xa", "0xka"⟩
      [] "alice").2 = [⟨"alice", "0xa", "0xka"⟩] ∧
    (create_account defaultSettings (fun _ => netFailEnv) ⟨"0xb", "0xkb"⟩
      (create_account defaultSettings (fun _ => netFailEnv)
        ⟨"0xa", "0xka"⟩ [] "alice").2 "alice").1 =
      .error .accountAlreadyExists := by
  have h := C10_create_account_not_atomic defaultSettings
    (fun _ => netFailEnv) (fun _ => netFailEnv) ⟨"0xa", "0xka"⟩
    ⟨"0xb", "0xkb"⟩ [] "alice" (by decide)
    (fun i _ => ⟨.networkError, by
      show (sendNativeTokenBody defaultSettings netFailEnv
        defaultSettings.faucetPrivateKey
        (BlockchainAccount.mk "0xa" "0xka").address
        (toWeiGwei defaultSettings.initialFaucetGwei)).result =
        .error .networkError
      decide⟩)
  exact ⟨h.1, h.2.1, h.2.2⟩
